import Mathlib

/-!
Shallow embedding of the archetype-based ECS storage core
(`src/ecs/storage.rs`, `src/ecs/archetype.rs`, `src/ecs/query.rs`).

Rust `TypeId`s are modelled as natural numbers, component values as opaque
naturals tagged with their type id, `HashMap`s as association lists (insert
replaces in place, iteration is list order), and Rust panics as
`Except.error` results.
-/

namespace ECS

abbrev TypeId := Nat
abbrev Val := Nat
abbrev EntityId := Nat
abbrev ArchetypeId := Nat

/-- Association-list model of a Rust `HashMap` with `Nat` keys. -/
abbrev AList (α : Type) := List (Nat × α)

def alookup {α : Type} (m : AList α) (k : Nat) : Option α :=
  match m with
  | [] => none
  | (k', v) :: rest => if k' = k then some v else alookup rest k

/-- Embedding of `HashMap::insert`: replace the binding in place if present, else append. -/
def ainsert {α : Type} (m : AList α) (k : Nat) (v : α) : AList α :=
  match m with
  | [] => [(k, v)]
  | (k', v') :: rest => if k' = k then (k, v) :: rest else (k', v') :: ainsert rest k v

/-- Embedding of `HashMap::remove` (dropping the returned value). -/
def aremove {α : Type} (m : AList α) (k : Nat) : AList α :=
  m.filter (fun p => p.1 ≠ k)

/-- A type-erased column (`Box<dyn ComponentVec>`, concretely a `Vec<T>`):
the erased element type identity plus the dense value sequence. -/
structure Column where
  elemTy : TypeId
  data : List Val
deriving DecidableEq

/-- Embedding of `ComponentVec::new_empty`: fresh empty column of the same element type. -/
def Column.new_empty (c : Column) : Column := ⟨c.elemTy, []⟩

/-- Embedding of `Vec::swap_remove`: move the last element into slot `i`, shrink by one.
Returns the removed element and the shrunk list; `none` models the
out-of-bounds panic. -/
def listSwapRemove (l : List Val) (i : Nat) : Option (Val × List Val) :=
  if h : i < l.length then
    some (l.get ⟨i, h⟩, (l.set i (l.getLast?.getD 0)).dropLast)
  else none

/-- The list left behind by `Vec::swap_remove` at an in-bounds index. -/
def swapRemovedData (l : List Val) (i : Nat) : List Val :=
  (l.set i (l.getLast?.getD 0)).dropLast

/-- Embedding of `ComponentVec::migrate_element`: swap-remove the element at `index`
from `c` and push it onto `other`; the downcast failure on mismatched
element types is a fatal error (after the swap-remove, as in the source). -/
def migrateElement (c : Column) (i : Nat) (other : Column) :
    Except String (Column × Column) :=
  match listSwapRemove c.data i with
  | none => .error "swap_remove index out of bounds"
  | some (x, rest) =>
    if other.elemTy = c.elemTy then
      .ok (⟨c.elemTy, rest⟩, ⟨other.elemTy, other.data ++ [x]⟩)
    else .error "Type mismatch during migration"

structure Archetype where
  id : ArchetypeId
  component_types : List Column
  types : List TypeId
deriving DecidableEq

structure EntityRecord where
  archetype_id : ArchetypeId
  entity_row : Nat
deriving DecidableEq

structure Storage where
  archetypes : AList Archetype
  component_index : AList (List ArchetypeId)
  entity_index : AList EntityRecord
  archetype_id_counter : ArchetypeId
deriving DecidableEq

def Storage.new : Storage := ⟨[], [], [], 0⟩

/-- Specialisation of `List.modify`: replace the element at index `i`. -/
def listSet {α : Type} (l : List α) (i : Nat) (v : α) : List α := l.set i v

/-- Embedding of `Archetype::new_from_add`: empty copies of all columns plus one fresh
column for the added type, columns re-sorted by element type id, type list
re-sorted; the `assert!` that the type is not already present is a fatal
error. -/
def Archetype.new_from_add (from_archetype : Archetype) (ty : TypeId)
    (id : ArchetypeId) : Except String Archetype :=
  let component_types := from_archetype.component_types.map Column.new_empty
  if component_types.any (fun c => c.elemTy = ty) then
    .error "assertion failed: component type already present"
  else
    let component_types := component_types ++ [⟨ty, []⟩]
    let component_types :=
      component_types.insertionSort (fun a b => a.elemTy ≤ b.elemTy)
    let types := (from_archetype.types ++ [ty]).insertionSort (fun a b => a ≤ b)
    .ok ⟨id, component_types, types⟩

/-- Embedding of `Archetype::new_from_remove`: empty copies of all columns with the
column of the removed type dropped; the type list loses the entry at the
same position.  A missing column is a fatal error. -/
def Archetype.new_from_remove (from_archetype : Archetype) (ty : TypeId)
    (id : ArchetypeId) : Except String Archetype :=
  let component_types := from_archetype.component_types.map Column.new_empty
  match component_types.findIdx? (fun c => c.elemTy = ty) with
  | none => .error "Component type not found."
  | some i =>
    .ok ⟨id, component_types.eraseIdx i, from_archetype.types.eraseIdx i⟩

/-- Embedding of `Archetype::push_component`: append to the first column whose erased
element type matches; a missing column is a fatal error. -/
def Archetype.push_component (a : Archetype) (ty : TypeId) (v : Val) :
    Except String Archetype :=
  match a.component_types.findIdx? (fun c => c.elemTy = ty) with
  | none => .error "Component type not found."
  | some i =>
    match a.component_types.get? i with
    | none => .error "Component type not found."
    | some c =>
      .ok { a with component_types := a.component_types.set i ⟨c.elemTy, c.data ++ [v]⟩ }

/-- The two-cursor merge-join loop of `align_and_migrate_archetypes`:
advance the cursor of the lesser type id; on a tie migrate the element at
`row` from the source column to the target column (only when `row` is
within the source column's current bounds), then advance both. -/
def alignLoop (sTys tTys : List TypeId) (row : Nat) :
    Nat → Nat → Nat → List Column → List Column → Except String (List Column × List Column)
  | 0, _, _, _, _ => .error "loop iteration bound exhausted"
  | fuel + 1, i, j, sCols, tCols =>
    if h : i < sTys.length ∧ j < tTys.length then
      let sTy := sTys.get ⟨i, h.1⟩
      let tTy := tTys.get ⟨j, h.2⟩
      if sTy < tTy then alignLoop sTys tTys row fuel (i+1) j sCols tCols
      else if tTy < sTy then alignLoop sTys tTys row fuel i (j+1) sCols tCols
      else
        match sCols.get? i, tCols.get? j with
        | some sc, some tc =>
          if row < sc.data.length then
            match migrateElement sc row tc with
            | .error e => .error e
            | .ok (sc', tc') =>
              alignLoop sTys tTys row fuel (i+1) (j+1) (sCols.set i sc') (tCols.set j tc')
          else alignLoop sTys tTys row fuel (i+1) (j+1) sCols tCols
        | _, _ => .error "index out of bounds"
    else .ok (sCols, tCols)

/-- Embedding of `align_and_migrate_archetypes` from `src/ecs/archetype.rs`.  The loop
runs at most `types` + `types` many iterations (each step advances at
least one cursor and stops once either passes the end), so that iteration
bound is passed as structural fuel; the exhaustion branch is unreachable. -/
def align_and_migrate_archetypes (source target : Archetype) (row : Nat) :
    Except String (Archetype × Archetype) :=
  match alignLoop source.types target.types row
      (source.types.length + target.types.length + 1) 0 0
      source.component_types target.component_types with
  | .error e => .error e
  | .ok (s', t') =>
    .ok ({ source with component_types := s' }, { target with component_types := t' })

/-- Embedding of `Storage::has_component`: the type has an entry in the component index. -/
def has_component (s : Storage) (ty : TypeId) : Bool :=
  (alookup s.component_index ty).isSome

/-- Embedding of `Storage::get_archetype_for_entity`: `None` when the entity has no
record; indexing `archetypes[&id]` with a dangling record is a fatal
error. -/
def get_archetype_for_entity (s : Storage) (entity : EntityId) :
    Except String (Option Archetype) :=
  match alookup s.entity_index entity with
  | none => .ok none
  | some r =>
    match alookup s.archetypes r.archetype_id with
    | none => .error "Archetype not found for entity record."
    | some a => .ok (some a)

/-- Embedding of `Storage::has_entity_component`.  Note the source tests
`vec.get(entity)` — the *entity id* is used as the column index. -/
def has_entity_component (s : Storage) (ty : TypeId) (entity : EntityId) :
    Except String Bool := do
  let oa ← get_archetype_for_entity s entity
  match oa with
  | none => pure false
  | some a =>
    pure (a.component_types.any (fun c => c.elemTy = ty ∧ entity < c.data.length))

/-- Embedding of `Storage::get_archetypes_for_component`: resolve the component index
entry's archetype ids; a stale id is a fatal error (`archetypes[&id]`). -/
def get_archetypes_for_component (s : Storage) (ty : TypeId) :
    Except String (List Archetype) :=
  match alookup s.component_index ty with
  | none => .ok []
  | some ids =>
    ids.mapM (fun id =>
      match alookup s.archetypes id with
      | none => Except.error "Archetype not found."
      | some a => Except.ok a)

/-- Embedding of `Storage::find_archetype_id_by_type_ids`: stable search over the
candidates anchored at `anchorTy`'s index entry for an archetype whose
type set matches `type_ids` exactly (equal cardinality plus membership). -/
def find_archetype_id_by_type_ids (s : Storage) (anchorTy : TypeId)
    (type_ids : List TypeId) : Except String (Option ArchetypeId) := do
  let matching ← get_archetypes_for_component s anchorTy
  pure ((matching.find? (fun a =>
    a.types.length = type_ids.length &&
      a.types.all (fun t => type_ids.contains t))).map (·.id))

/-- Embedding of `Storage::register_archetype`: push the archetype's id onto the index
entry of each of its types, insert it, bump the id counter. -/
def register_archetype (s : Storage) (archetype : Archetype) : Storage :=
  let component_index := archetype.types.foldl
    (fun m ty =>
      match alookup m ty with
      | some ids => ainsert m ty (ids ++ [archetype.id])
      | none => ainsert m ty [archetype.id])
    s.component_index
  { s with
    archetypes := ainsert s.archetypes archetype.id archetype
    component_index := component_index
    archetype_id_counter := s.archetype_id_counter + 1 }

/-- Embedding of `Storage::add_archetype_for_new_component_type`: a fresh single-column
archetype holding only the given value. -/
def add_archetype_for_new_component_type (s : Storage) (ty : TypeId) (v : Val) :
    Storage × Archetype :=
  let archetype : Archetype := ⟨s.archetype_id_counter, [⟨ty, [v]⟩], [ty]⟩
  (register_archetype s archetype, archetype)

/-- Embedding of `Storage::remove_archetype`: clear everything when this is the last
archetype; otherwise remove it and purge its id from the index entry of
each of its types, dropping entries that would become empty. -/
def remove_archetype (s : Storage) (archetype_id : ArchetypeId) :
    Except String Storage :=
  if s.archetypes.length = 1 then
    .ok { s with archetypes := [], component_index := [], entity_index := [] }
  else
    match alookup s.archetypes archetype_id with
    | none => .error "called Option::unwrap on a None value"
    | some archetype =>
      let s := { s with archetypes := aremove s.archetypes archetype_id }
      archetype.types.foldlM
        (fun s ty =>
          match alookup s.component_index ty with
          | none => Except.error "called Option::unwrap on a None value"
          | some ids =>
            if ids.length = 1 then
              Except.ok { s with component_index := aremove s.component_index ty }
            else
              let ci := ainsert s.component_index ty (ids.filter (fun id => id ≠ archetype_id))
              Except.ok { s with component_index := ci })
        s

/-- Embedding of `Storage::remove_entity` from `src/ecs/storage.rs`. -/
def remove_entity (s : Storage) (entity : EntityId) : Except String Storage :=
  match alookup s.entity_index entity with
  | none => .ok s
  | some record =>
    let s := { s with entity_index := aremove s.entity_index entity }
    match alookup s.archetypes record.archetype_id with
    | none => .error "Internal storage error. Entity index points to invalid archetype id."
    | some archetype =>
      match archetype.component_types.get? 0 with
      | none => .error "index out of bounds"
      | some c0 =>
        let archetype_size := c0.data.length
        if archetype_size = 1 then remove_archetype s record.archetype_id
        else do
          let cols ← archetype.component_types.mapM (fun c =>
            match listSwapRemove c.data record.entity_row with
            | none => Except.error "swap_remove index out of bounds"
            | some (_, rest) => Except.ok (⟨c.elemTy, rest⟩ : Column))
          let archs := ainsert s.archetypes record.archetype_id { archetype with component_types := cols }
          let s := { s with archetypes := archs }
          if record.entity_row < archetype_size - 1 then
            match s.entity_index.find? (fun p => p.2.archetype_id = record.archetype_id) with
            | none => .error "Entity not found."
            | some (e, r) =>
              let ei := ainsert s.entity_index e ⟨r.archetype_id, record.entity_row⟩
              .ok { s with entity_index := ei }
          else .ok s

/-- Embedding of `Storage::move_entity_to_new_archetype`: take the entity's record out
of the index, detach both archetypes from the table, run the merge-join
migration, reinsert both. -/
def move_entity_to_new_archetype (s : Storage) (entity : EntityId)
    (new_archetype_id : ArchetypeId) : Except String Storage :=
  match alookup s.entity_index entity with
  | none => .ok s
  | some current_record =>
    let s := { s with entity_index := aremove s.entity_index entity }
    match alookup s.archetypes current_record.archetype_id with
    | none => .error "Internal storage error. Invalid Archetype ID."
    | some current_archetype =>
      let s := { s with archetypes := aremove s.archetypes current_record.archetype_id }
      match alookup s.archetypes new_archetype_id with
      | none => .error "Internal storage error. Invalid Archetype ID."
      | some new_archetype =>
        let s := { s with archetypes := aremove s.archetypes new_archetype_id }
        match align_and_migrate_archetypes current_archetype new_archetype
            current_record.entity_row with
        | .error e => .error e
        | .ok (cur', new') =>
          let archs := ainsert (ainsert s.archetypes cur'.id cur') new'.id new'
          .ok { s with archetypes := archs }

/-- Embedding of `Storage::add_component_to_entity` from `src/ecs/storage.rs`. -/
def add_component_to_entity (s : Storage) (entity : EntityId) (ty : TypeId)
    (v : Val) : Except String Storage :=
  if ¬ has_component s ty ∧ alookup s.entity_index entity = none then
    let (s', archetype) := add_archetype_for_new_component_type s ty v
    .ok { s' with entity_index := ainsert s'.entity_index entity ⟨archetype.id, 0⟩ }
  else do
    let hec ← has_entity_component s ty entity
    if (alookup s.entity_index entity).isSome ∧ hec then .ok s
    else do
      let current_archetype ← get_archetype_for_entity s entity
      let wanted_component_types :=
        ((current_archetype.map (·.types)).getD []) ++ [ty]
      let found ← find_archetype_id_by_type_ids s ty wanted_component_types
      let (s, new_archetype_id) ←
        match found with
        | some id => pure (s, id)
        | none => do
          let id := s.archetype_id_counter
          let curr ← match current_archetype with
            | some a => pure a
            | none => Except.error "Expected entity with existing archetype."
          let new_archetype ← Archetype.new_from_add curr ty id
          pure (register_archetype s new_archetype, id)
      let s ← move_entity_to_new_archetype s entity new_archetype_id
      let new_archetype ← match alookup s.archetypes new_archetype_id with
        | some a => pure a
        | none => Except.error "Internal storage error. Invalid Archetype ID."
      let new_archetype ← new_archetype.push_component ty v
      let s := { s with archetypes := ainsert s.archetypes new_archetype_id new_archetype }
      match new_archetype.component_types.get? 0 with
      | none => .error "index out of bounds"
      | some c0 =>
        let ei := ainsert s.entity_index entity ⟨new_archetype.id, c0.data.length - 1⟩
        .ok { s with entity_index := ei }

/-- Embedding of `Storage::remove_component_from_entity` from `src/ecs/storage.rs`.
The `_component` value argument is unused by the source. -/
def remove_component_from_entity (s : Storage) (entity : EntityId) (ty : TypeId)
    (_component : Val) : Except String Storage := do
  let hec ← has_entity_component s ty entity
  if alookup s.entity_index entity = none ∨ ¬ hec then .ok s
  else do
    let current_archetype ← get_archetype_for_entity s entity
    let wanted_component_types :=
      ((current_archetype.map (·.types)).getD []).filter (fun t => t ≠ ty)
    let found ← find_archetype_id_by_type_ids s ty wanted_component_types
    let (s, new_archetype_id) ←
      match found with
      | some id => pure (s, id)
      | none => do
        let id := s.archetype_id_counter
        let curr ← match current_archetype with
          | some a => pure a
          | none => Except.error "Expected entity with existing archetype."
        let new_archetype ← Archetype.new_from_remove curr ty id
        pure (register_archetype s new_archetype, id)
    let s ← move_entity_to_new_archetype s entity new_archetype_id
    let new_archetype ← match alookup s.archetypes new_archetype_id with
      | some a => pure a
      | none => Except.error "Internal storage error. Invalid Archetype ID."
    match new_archetype.component_types.get? 0 with
    | none => .error "index out of bounds"
    | some c0 =>
      let ei := ainsert s.entity_index entity ⟨new_archetype.id, c0.data.length - 1⟩
      .ok { s with entity_index := ei }

/-- The archetype-id set recorded for one type in the component index
(`HashSet` collected from the index entry, empty for an unknown type). -/
def indexSet (s : Storage) (ty : TypeId) : Finset ArchetypeId :=
  ((alookup s.component_index ty).getD []).toFinset

/-- Embedding of `itertools::position_min_by_key` on set cardinalities: position of the
first set of minimal size. -/
def positionMinByCard (sets : List (Finset ArchetypeId)) : Option Nat :=
  match (sets.map Finset.card).min? with
  | none => none
  | some m => (sets.map Finset.card).findIdx? (fun c => c = m)

/-- Embedding of `Vec::swap_remove` on a list of sets (move the last set into slot
`pos`, drop the last slot); only used at an in-bounds position. -/
def setsSwapRemove (sets : List (Finset ArchetypeId)) (pos : Nat) :
    List (Finset ArchetypeId) :=
  (sets.set pos ((sets.getLast?).getD ∅)).dropLast

/-- Embedding of `get_archetype_ids_for_types` from `src/ecs/query.rs`: per-type
archetype-id sets, swap-remove the smallest out, intersect the rest into
it.  The `unwrap` on an empty query list is a fatal error.  The result is
the set of ids (the source's `HashSet`, iterated in no particular order). -/
def get_archetype_ids_for_types (s : Storage) (type_ids : List TypeId) :
    Except String (Finset ArchetypeId) :=
  let archetype_sets := type_ids.map (fun ty => indexSet s ty)
  match positionMinByCard archetype_sets with
  | none => .error "called Option::unwrap on a None value"
  | some pos =>
    let smallest_set := archetype_sets.getD pos ∅
    let rest := setsSwapRemove archetype_sets pos
    .ok (rest.foldl (fun acc st => acc ∩ st) smallest_set)

/-- Embedding of `iter_archetype_components_by_type_ids`: keep the columns whose erased
element type is requested and stably sort them by the position of that
type in the requested list. -/
def iter_archetype_components_by_type_ids (a : Archetype)
    (type_ids : List TypeId) : List Column :=
  (a.component_types.filter (fun c => type_ids.contains c.elemTy)).insertionSort
    (fun c₁ c₂ => type_ids.findIdx (fun t => t = c₁.elemTy) ≤
      type_ids.findIdx (fun t => t = c₂.elemTy))

/-- The `components.next().unwrap().as_any().downcast_ref::<Vec<C_i>>().unwrap()`
chain of the `iterate_components_base` macro: take one extracted column per
requested type, in order, checking the downcast. -/
def pickColumns : List TypeId → List Column → Except String (List Column)
  | [], _ => .ok []
  | _ :: _, [] => .error "called Option::unwrap on a None value"
  | t :: ts, c :: cs =>
    if c.elemTy = t then
      match pickColumns ts cs with
      | .error e => .error e
      | .ok rest => .ok (c :: rest)
    else .error "downcast to requested component vector failed"

/-- Embedding of `itertools::izip!` over the picked columns: tuples (as lists) drawn
from equal indices, stopping at the shortest column. -/
def zipRows (cols : List (List Val)) : List (List Val) :=
  (List.range (((cols.map List.length).min?).getD 0)).map
    (fun k => cols.map (fun c => c.getD k 0))

/-- One archetype's contribution to a query: extract the requested columns
in requested order and zip them. -/
def archetypeTuples (a : Archetype) (type_ids : List TypeId) :
    Except String (List (List Val)) :=
  match pickColumns type_ids (iter_archetype_components_by_type_ids a type_ids) with
  | .error e => .error e
  | .ok picked => .ok (zipRows (picked.map (·.data)))

/-- The body of the `iterate_components_base` macro after the duplicate
assertion: resolve the intersected archetype ids (visited in id order) and
concatenate each archetype's zipped tuples. -/
def iterate_components_unchecked (s : Storage) (type_ids : List TypeId) :
    Except String (List (List Val)) := do
  let common ← get_archetype_ids_for_types s type_ids
  let ids := common.sort (· ≤ ·)
  let archetypes ← ids.mapM (fun id =>
    match alookup s.archetypes id with
    | none => Except.error "Archetype not found."
    | some a => Except.ok a)
  let tuples ← archetypes.mapM (fun a => archetypeTuples a type_ids)
  pure tuples.flatten

/-- The duplicate-type assertion of `iterate_components_base`: the number
of distinct requested types must equal the number requested. -/
def assertTypesDistinct (type_ids : List TypeId) : Bool :=
  type_ids.dedup.length = type_ids.length

/-- Embedding of `iterate_components_base` from `src/ecs/query.rs` (the shared body of
`query_two`/`query_three`/`query_four` and their `_mut` variants): assert
the requested types pairwise distinct, then iterate. -/
def iterate_components (s : Storage) (type_ids : List TypeId) :
    Except String (List (List Val)) :=
  if assertTypesDistinct type_ids then iterate_components_unchecked s type_ids
  else .error "Component types must be different when querying more than one component type"

/-! ### Association-list lemmas -/

theorem alookup_ainsert {α : Type} (m : AList α) (k : Nat) (v : α) :
    alookup (ainsert m k v) k = some v := by
  induction m with
  | nil => simp [ainsert, alookup]
  | cons p rest ih =>
    obtain ⟨k', v'⟩ := p
    by_cases h : k' = k <;> simp [ainsert, alookup, h, ih]

theorem alookup_ainsert_ne {α : Type} (m : AList α) {k k' : Nat} (v : α)
    (hk : k' ≠ k) : alookup (ainsert m k v) k' = alookup m k' := by
  have hk' : ¬ (k = k') := fun h => hk h.symm
  induction m with
  | nil => simp [ainsert, alookup, hk']
  | cons p rest ih =>
    obtain ⟨k₀, v₀⟩ := p
    by_cases h : k₀ = k
    · subst h
      simp [ainsert, alookup, hk']
    · by_cases h' : k₀ = k' <;> simp [ainsert, alookup, h, h', hk, hk', ih]

theorem alookup_aremove_self {α : Type} (m : AList α) (k : Nat) :
    alookup (aremove m k) k = none := by
  induction m with
  | nil => rfl
  | cons p rest ih =>
    obtain ⟨k₀, v₀⟩ := p
    by_cases h : k₀ = k
    · simpa [aremove, List.filter_cons, h] using ih
    · simpa [aremove, List.filter_cons, alookup, h] using ih

theorem alookup_aremove_ne {α : Type} (m : AList α) {k k' : Nat}
    (hk : k' ≠ k) : alookup (aremove m k) k' = alookup m k' := by
  have hkne : ¬ (k = k') := fun hh => hk hh.symm
  induction m with
  | nil => rfl
  | cons p rest ih =>
    obtain ⟨k₀, v₀⟩ := p
    by_cases h : k₀ = k
    · simp [aremove, List.filter_cons, alookup, h, hkne] at ih ⊢
      exact ih
    · by_cases h' : k₀ = k'
      · simp [aremove, List.filter_cons, alookup, h, h', hk, hkne]
      · simpa [aremove, List.filter_cons, alookup, h, h', hk, hkne] using ih

/-! ### C10 -/

/-- C10: `remove_component_from_entity` ignores the value of its component
argument — detaching with any two values of the same component type from
the same storage state produces identical results; the outcome depends
only on the component's type. -/
theorem remove_component_value_irrelevant (s : Storage) (entity : EntityId)
    (ty : TypeId) (v₁ v₂ : Val) :
    remove_component_from_entity s entity ty v₁ =
      remove_component_from_entity s entity ty v₂ := rfl

/-! ### C1 -/

/-- C1: attaching the same component type twice to one entity is *not*
always a no-op.  `has_entity_component` tests `vec.get(entity)` — the
entity id is used as the column index — so for an entity id that is not
smaller than the column length (here entity 1 alone in a one-row
archetype) the duplicate-attach branch is skipped and the second call
halts at the `new_from_add` assertion instead of returning the unchanged
storage. -/
theorem add_same_type_twice_asserts : (do
      let s ← add_component_to_entity Storage.new 1 10 5
      add_component_to_entity s 1 10 7 : Except String Storage) =
    .error "assertion failed: component type already present" := rfl

/-! ### C2 -/

/-- C2: the entity-index/row invariant is violated in a reachable state.
Three entities share archetype 0 at rows 0, 1, 2; removing the entity at
row 0 swap-removes the row (columns shrink to length 2) but the fix-up
scan updates the *first* index entry pointing at archetype 0 (entity 1)
rather than the moved entity 2, leaving entity 2 recorded at row 2 with
every column of its archetype of length 2. -/
theorem entity_index_row_invariant_violated : ((do
      let s ← add_component_to_entity Storage.new 0 10 100
      let s ← add_component_to_entity s 1 10 101
      let s ← add_component_to_entity s 2 10 102
      remove_entity s 0 : Except String Storage).map
      (fun s' => ((alookup s'.entity_index 2).map (fun r => r.entity_row),
        (alookup s'.archetypes 0).map
          (fun a => a.component_types.map (fun c => c.data.length))))) =
    .ok (some 2, some [2]) := rfl

/-! ### C4 -/

/-- C4: after swap-removing row 0 of an archetype holding entities 1 and 2
at rows 1 and 2, the entity whose components were moved into row 0 is
entity 2 (previously at the last row), but the full index scan finds
entity 1 first and rewrites *its* row to 0, leaving entity 2's stale entry
untouched — contradicting the claim that exactly the moved entity's entry
is updated. -/
theorem remove_entity_updates_wrong_record : ((do
      let s ← add_component_to_entity Storage.new 0 10 100
      let s ← add_component_to_entity s 1 10 101
      let s ← add_component_to_entity s 2 10 102
      remove_entity s 0 : Except String Storage).map
      (fun s' => (alookup s'.entity_index 1, alookup s'.entity_index 2))) =
    .ok (some ⟨0, 0⟩, some ⟨0, 2⟩) := rfl

/-! ### C3 -/

/-- C3 counterexample: a reachable state in which entity 2 has no record
and no archetype holds exactly the type set `[1]` (type 1 lives only in
the two-column archetype), yet `add_component_to_entity` does not create a
fresh single-column archetype — it halts at the
`Expected entity with existing archetype.` panic, because the fresh-
archetype branch fires only when the type is absent from the component
index altogether. -/
theorem add_component_fresh_archetype_counterexample : (do
      let s ← add_component_to_entity Storage.new 0 1 5
      let s ← add_component_to_entity s 0 2 60
      let s ← add_component_to_entity s 1 1 7
      let s ← remove_entity s 1
      add_component_to_entity s 2 1 9 : Except String Storage) =
    .error "Expected entity with existing archetype." := rfl

/-- C3 (amended): if the entity has no record *and the component's type is
absent from the component index altogether*, `add_component_to_entity`
creates a fresh single-column archetype holding only the value, registers
it in the type index, records the entity at row 0, and leaves every other
archetype, index entry and entity record unchanged. -/
theorem add_component_fresh_type_new_entity (s : Storage) (entity : EntityId)
    (ty : TypeId) (v : Val)
    (he : alookup s.entity_index entity = none)
    (hc : alookup s.component_index ty = none) :
    ∃ s', add_component_to_entity s entity ty v = .ok s' ∧
      alookup s'.archetypes s.archetype_id_counter =
        some ⟨s.archetype_id_counter, [⟨ty, [v]⟩], [ty]⟩ ∧
      (∀ id, id ≠ s.archetype_id_counter →
        alookup s'.archetypes id = alookup s.archetypes id) ∧
      alookup s'.component_index ty = some [s.archetype_id_counter] ∧
      (∀ t, t ≠ ty → alookup s'.component_index t = alookup s.component_index t) ∧
      alookup s'.entity_index entity = some ⟨s.archetype_id_counter, 0⟩ ∧
      (∀ e, e ≠ entity → alookup s'.entity_index e = alookup s.entity_index e) ∧
      s'.archetype_id_counter = s.archetype_id_counter + 1 := by
  let arch : Archetype := ⟨s.archetype_id_counter, [⟨ty, [v]⟩], [ty]⟩
  refine ⟨⟨ainsert s.archetypes s.archetype_id_counter arch,
      ainsert s.component_index ty [s.archetype_id_counter],
      ainsert s.entity_index entity ⟨s.archetype_id_counter, 0⟩,
      s.archetype_id_counter + 1⟩, ?_, ?_, ?_, ?_, ?_, ?_, ?_, ?_⟩
  · rw [add_component_to_entity, if_pos]
    · simp [add_archetype_for_new_component_type, register_archetype, hc]
    · exact ⟨by simp [has_component, hc], he⟩
  · exact alookup_ainsert _ _ _
  · exact fun id hid => alookup_ainsert_ne _ _ hid
  · exact alookup_ainsert _ _ _
  · exact fun t ht => alookup_ainsert_ne _ _ ht
  · exact alookup_ainsert _ _ _
  · exact fun e hee => alookup_ainsert_ne _ _ hee
  · rfl

/-- Witness for the amended C3 theorem at a concrete input. -/
theorem add_component_fresh_type_new_entity_witness :
    ∃ s', add_component_to_entity Storage.new 3 7 42 = .ok s' ∧
      alookup s'.archetypes 0 = some ⟨0, [⟨7, [42]⟩], [7]⟩ ∧
      alookup s'.entity_index 3 = some ⟨0, 0⟩ := by
  obtain ⟨s', h1, h2, _, _, _, h6, _, _⟩ :=
    add_component_fresh_type_new_entity Storage.new 3 7 42 rfl rfl
  exact ⟨s', h1, h2, h6⟩

/-! ### C9 -/

theorem assertTypesDistinct_iff (ts : List TypeId) :
    assertTypesDistinct ts = true ↔ ts.Nodup := by
  unfold assertTypesDistinct
  constructor
  · intro h
    have hlen : ts.dedup.length = ts.length := by simpa using h
    have hsub : ts.dedup.Sublist ts := ts.dedup_sublist
    have : ts.dedup = ts := hsub.eq_of_length hlen
    simpa [this] using ts.nodup_dedup
  · intro h
    simp [List.dedup_eq_self.mpr h]

/-- C9: a query whose requested types contain a duplicate stops with the
fatal duplicate-type error before yielding anything, and for pairwise
distinct requested types the assertion never fires — the query proceeds to
the post-assertion body unchanged. -/
theorem query_duplicate_type_assertion (s : Storage) (ts : List TypeId) :
    (¬ ts.Nodup → iterate_components s ts =
      .error "Component types must be different when querying more than one component type") ∧
    (ts.Nodup → iterate_components s ts = iterate_components_unchecked s ts) := by
  constructor
  · intro h
    have : ¬ (assertTypesDistinct ts = true) := fun hh => h ((assertTypesDistinct_iff ts).mp hh)
    simp [iterate_components, this]
  · intro h
    simp [iterate_components, (assertTypesDistinct_iff ts).mpr h]

/-- Witness for C9: a duplicate two-type query errors; a distinct one
reaches the query body. -/
theorem query_duplicate_type_assertion_witness :
    iterate_components Storage.new [5, 5] =
      .error "Component types must be different when querying more than one component type" ∧
    iterate_components Storage.new [1, 2] = iterate_components_unchecked Storage.new [1, 2] :=
  ⟨(query_duplicate_type_assertion Storage.new [5, 5]).1 (by decide),
   (query_duplicate_type_assertion Storage.new [1, 2]).2 (by decide)⟩

/-! ### C8 -/

theorem mem_foldl_inter (l : List (Finset ArchetypeId)) (init : Finset ArchetypeId)
    (x : ArchetypeId) :
    x ∈ l.foldl (fun acc st => acc ∩ st) init ↔ x ∈ init ∧ ∀ S ∈ l, x ∈ S := by
  induction l generalizing init with
  | nil => simp
  | cons S rest ih =>
    simp only [List.foldl_cons, ih, Finset.mem_inter, List.mem_cons]
    constructor
    · rintro ⟨⟨h1, h2⟩, h3⟩
      exact ⟨h1, fun T hT => by rcases hT with rfl | hT; exact h2; exact h3 T hT⟩
    · rintro ⟨h1, h2⟩
      exact ⟨⟨h1, h2 S (Or.inl rfl)⟩, fun T hT => h2 T (Or.inr hT)⟩

theorem mem_setsSwapRemove (sets : List (Finset ArchetypeId)) (pos : Nat)
    (hpos : pos < sets.length) (S : Finset ArchetypeId) :
    (S ∈ setsSwapRemove sets pos → S ∈ sets) ∧
    (S ∈ sets → S = sets.getD pos ∅ ∨ S ∈ setsSwapRemove sets pos) := by
  have hne : sets ≠ [] := List.ne_nil_of_length_pos (Nat.lt_of_le_of_lt (Nat.zero_le _) hpos)
  have hlast : (sets.getLast?).getD ∅ ∈ sets := by
    rw [List.getLast?_eq_getLast sets hne]
    exact List.getLast_mem hne
  constructor
  · intro h
    have h1 : S ∈ sets.set pos ((sets.getLast?).getD ∅) :=
      (List.dropLast_sublist _).mem h
    rcases List.mem_or_eq_of_mem_set h1 with h2 | h2
    · exact h2
    · exact h2 ▸ hlast
  · intro h
    rw [List.mem_iff_getElem] at h
    obtain ⟨k, hk, hkS⟩ := h
    by_cases hkp : k = pos
    · subst hkp
      left
      rw [List.getD_eq_getElem sets ∅ hk] at *
      exact hkS.symm
    · by_cases hklast : k < sets.length - 1
      · right
        rw [List.mem_iff_getElem]
        refine ⟨k, ?_, ?_⟩
        · simpa [setsSwapRemove, List.length_dropLast, List.length_set] using hklast
        · simp only [setsSwapRemove]
          rw [List.getElem_dropLast, List.getElem_set_ne (fun h => hkp h.symm)]
          exact hkS
      · -- k = sets.length - 1, and k ≠ pos so pos < sets.length - 1
        have hk1 : k = sets.length - 1 := by omega
        have hplt : pos < sets.length - 1 := by omega
        right
        have hSlast : S = (sets.getLast?).getD ∅ := by
          rw [List.getLast?_eq_getLast sets hne]
          simp only [Option.getD_some]
          rw [List.getLast_eq_getElem sets hne]
          subst hk1
          exact hkS.symm
        rw [List.mem_iff_getElem]
        refine ⟨pos, ?_, ?_⟩
        · simpa [setsSwapRemove, List.length_dropLast, List.length_set] using hplt
        · simp only [setsSwapRemove]
          rw [List.getElem_dropLast]
          rw [List.getElem_set]
          simp [hSlast]

theorem except_bind_ok {α β : Type} (a : α) (f : α → Except String β) :
    (Except.ok a >>= f) = f a := rfl

/-- C8: for every nonempty query type list, the archetype-id set computed
by `get_archetype_ids_for_types` (smallest per-type set swap-removed out
first, the rest intersected into it) is exactly the intersection of the
per-type archetype-id sets taken from the component index, with the empty
set for a type that has no entry; and when that intersection is empty a
duplicate-free query yields the empty sequence. -/
theorem query_archetype_set_is_intersection (s : Storage) (ts : List TypeId)
    (h : ts ≠ []) :
    ∃ r, get_archetype_ids_for_types s ts = .ok r ∧
      (∀ id, id ∈ r ↔ ∀ t ∈ ts, id ∈ indexSet s t) ∧
      (ts.Nodup → r = ∅ → iterate_components s ts = .ok []) := by
  have hsne : ts.map (fun t => indexSet s t) ≠ [] := by simpa using h
  set sets := ts.map (fun t => indexSet s t) with hsets
  have hcne : sets.map Finset.card ≠ [] := by simpa using hsne
  obtain ⟨m, hm⟩ : ∃ m, (sets.map Finset.card).min? = some m := by
    cases hmm : (sets.map Finset.card).min? with
    | none => exact absurd (List.min?_eq_none_iff.mp hmm) hcne
    | some m => exact ⟨m, rfl⟩
  have hmem : m ∈ sets.map Finset.card := List.min?_mem (fun a b => min_choice a b) hm
  obtain ⟨pos, hpos⟩ : ∃ pos, (sets.map Finset.card).findIdx? (fun c => c = m) = some pos := by
    cases hff : (sets.map Finset.card).findIdx? (fun c => c = m) with
    | none =>
      rw [List.findIdx?_eq_none_iff] at hff
      have := hff m hmem
      simp at this
    | some p => exact ⟨p, rfl⟩
  have hposlt : pos < sets.length := by
    have := (List.findIdx?_eq_some_iff_findIdx_eq.mp hpos).1
    simpa using this
  have hrun : get_archetype_ids_for_types s ts =
      .ok ((setsSwapRemove sets pos).foldl (fun acc st => acc ∩ st) (sets.getD pos ∅)) := by
    simp only [get_archetype_ids_for_types, positionMinByCard, ← hsets]
    simp only [hm]
    simp [hpos]
  refine ⟨_, hrun, ?_, ?_⟩
  · intro id
    rw [mem_foldl_inter]
    constructor
    · rintro ⟨hinit, hrest⟩ t ht
      have hmm : indexSet s t ∈ sets := by
        rw [hsets]
        exact List.mem_map_of_mem _ ht
      rcases (mem_setsSwapRemove sets pos hposlt _).2 hmm with heq | hmem2
      · rw [heq]
        exact hinit
      · exact hrest _ hmem2
    · intro hall
      have hofmem : ∀ S ∈ sets, id ∈ S := by
        intro S hS
        rw [hsets] at hS
        obtain ⟨t, ht, heq⟩ := List.mem_map.mp hS
        rw [← heq]
        exact hall t ht
      constructor
      · have hgd : sets.getD pos ∅ ∈ sets := by
          rw [List.getD_eq_getElem _ _ hposlt]
          exact List.getElem_mem _
        exact hofmem _ hgd
      · intro S hS
        exact hofmem _ ((mem_setsSwapRemove sets pos hposlt S).1 hS)
  · intro hnd hr
    have h2 : iterate_components s ts = iterate_components_unchecked s ts := by
      simp [iterate_components, (assertTypesDistinct_iff ts).mpr hnd]
    rw [h2, iterate_components_unchecked, hrun, hr]
    rw [except_bind_ok]
    rw [Finset.sort_empty]
    simp [List.mapM.loop, except_bind_ok]
    rfl
/-- Witness for C8: on the empty storage the per-type sets are empty, the
intersection is empty, and a two-type query yields nothing. -/
theorem query_archetype_set_is_intersection_witness :
    iterate_components Storage.new [1, 2] = .ok [] := by
  obtain ⟨r, _, hmem, hempty⟩ :=
    query_archetype_set_is_intersection Storage.new [1, 2] (by decide)
  have hr : r = ∅ := by
    ext id
    simp only [Finset.not_mem_empty, iff_false]
    intro hid
    have h1 := (hmem id).mp hid 1 (by decide)
    simp [indexSet, Storage.new, alookup] at h1
  exact hempty (by decide) hr

/-! ### C6 -/

theorem alookup_length_one {α : Type} (m : AList α) {i j : Nat} {x y : α}
    (hlen : m.length = 1) (hi : alookup m i = some x) (hj : alookup m j = some y) :
    i = j := by
  match m with
  | [p] =>
    simp only [alookup] at hi hj
    by_cases h1 : p.1 = i
    · by_cases h2 : p.1 = j
      · omega
      · simp [h2] at hj
    · simp [h1] at hi

/-- The type-index purge loop of `remove_archetype`: one pass over the
removed archetype's type list, dropping entries of length one and
filtering the archetype id out of the rest. -/
theorem remove_archetype_fold (aid : ArchetypeId) (tys : List TypeId)
    (s₀ : Storage)
    (hnd : tys.Nodup)
    (hin : ∀ t ∈ tys, ∃ ids, alookup s₀.component_index t = some ids ∧
      aid ∈ ids ∧ ids.Nodup) :
    ∃ s', (tys.foldlM
        (fun s ty =>
          match alookup s.component_index ty with
          | none => Except.error "called Option::unwrap on a None value"
          | some ids =>
            if ids.length = 1 then
              Except.ok { s with component_index := aremove s.component_index ty }
            else
              let ci := ainsert s.component_index ty (ids.filter (fun id => id ≠ aid))
              Except.ok { s with component_index := ci })
        s₀) = .ok s' ∧
      s'.archetypes = s₀.archetypes ∧
      s'.entity_index = s₀.entity_index ∧
      s'.archetype_id_counter = s₀.archetype_id_counter ∧
      (∀ t ∈ tys, ∀ ids, alookup s₀.component_index t = some ids →
        alookup s'.component_index t =
          (if ids.filter (fun id => id ≠ aid) = [] then none
           else some (ids.filter (fun id => id ≠ aid)))) ∧
      (∀ t, t ∉ tys → alookup s'.component_index t = alookup s₀.component_index t) := by
  induction tys generalizing s₀ with
  | nil => exact ⟨s₀, rfl, rfl, rfl, rfl, by simp, fun t _ => rfl⟩
  | cons t tys ih =>
    obtain ⟨ids, hlook, hmem, hidnd⟩ := hin t (List.mem_cons_self t tys)
    have hndtail : tys.Nodup := hnd.of_cons
    have htnotin : t ∉ tys := (List.nodup_cons.mp hnd).1
    by_cases hone : ids.length = 1
    · -- this type's entry contains only `aid`: the entry is removed
      have hids : ids = [aid] := by
        obtain ⟨x, rfl⟩ := List.length_eq_one.mp hone
        simp at hmem
        simp [hmem]
      have hin' : ∀ t' ∈ tys, ∃ ids', alookup
          (aremove s₀.component_index t) t' = some ids' ∧ aid ∈ ids' ∧ ids'.Nodup := by
        intro t' ht'
        obtain ⟨ids', h1, h2, h3⟩ := hin t' (List.mem_cons_of_mem t ht')
        have hne : t' ≠ t := fun hh => htnotin (hh ▸ ht')
        exact ⟨ids', by simpa [alookup_aremove_ne _ hne] using h1, h2, h3⟩
      obtain ⟨s', hrun, ha, he, hcnt, hmain, hother⟩ :=
        ih { s₀ with component_index := aremove s₀.component_index t } hndtail hin'
      refine ⟨s', ?_, ha, he, hcnt, ?_, ?_⟩
      · rw [List.foldlM_cons, hlook]
        simp only [hone, if_pos]
        exact hrun
      · intro t' ht' ids' hids'
        rcases List.mem_cons.mp ht' with rfl | htail
        · rw [hother t' htnotin]
          rw [hlook] at hids'
          cases hids'
          show alookup (aremove s₀.component_index t') t' = _
          rw [alookup_aremove_self]
          simp [hids]
        · have hne : t' ≠ t := fun hh => htnotin (hh ▸ htail)
          exact hmain t' htail ids' (by simpa [alookup_aremove_ne _ hne] using hids')
      · intro t' ht'
        have hne : t' ≠ t := fun hh => ht' (hh ▸ List.mem_cons_self t tys)
        have htail : t' ∉ tys := fun hh => ht' (List.mem_cons_of_mem t hh)
        rw [hother t' htail]
        exact alookup_aremove_ne _ hne
    · -- the entry keeps other archetypes: `aid` is filtered out
      have hfilne : ids.filter (fun id => id ≠ aid) ≠ [] := by
        have herase : ids.erase aid = ids.filter (fun id => id ≠ aid) := by
          rw [hidnd.erase_eq_filter]
          have hfeq : (fun x : ArchetypeId => x != aid) =
              (fun id : ArchetypeId => decide (id ≠ aid)) := by
            funext x
            by_cases h : x = aid <;> simp [h]
          rw [hfeq]
        rw [← herase]
        have hlen : (ids.erase aid).length = ids.length - 1 :=
          List.length_erase_of_mem hmem
        have hpos : 1 ≤ ids.length := List.length_pos.mpr (List.ne_nil_of_mem hmem)
        intro hnil
        rw [hnil] at hlen
        simp at hlen
        omega
      have hin' : ∀ t' ∈ tys, ∃ ids', alookup
          (ainsert s₀.component_index t (ids.filter (fun id => id ≠ aid))) t' =
            some ids' ∧ aid ∈ ids' ∧ ids'.Nodup := by
        intro t' ht'
        obtain ⟨ids', h1, h2, h3⟩ := hin t' (List.mem_cons_of_mem t ht')
        have hne : t' ≠ t := fun hh => htnotin (hh ▸ ht')
        exact ⟨ids', by simpa [alookup_ainsert_ne _ _ hne] using h1, h2, h3⟩
      obtain ⟨s', hrun, ha, he, hcnt, hmain, hother⟩ := ih { s₀ with component_index := ainsert s₀.component_index t (ids.filter (fun id => id ≠ aid)) } hndtail hin'
      refine ⟨s', ?_, ha, he, hcnt, ?_, ?_⟩
      · rw [List.foldlM_cons, hlook]
        simp only [hone, if_neg]
        exact hrun
      · intro t' ht' ids' hids'
        rcases List.mem_cons.mp ht' with rfl | htail
        · rw [hother t' htnotin]
          rw [hlook] at hids'
          cases hids'
          show alookup (ainsert s₀.component_index t' (ids.filter (fun id => id ≠ aid))) t' = _
          rw [alookup_ainsert, if_neg hfilne]
        · have hne : t' ≠ t := fun hh => htnotin (hh ▸ htail)
          exact hmain t' htail ids' (by simpa [alookup_ainsert_ne _ _ hne] using hids')
      · intro t' ht'
        have hne : t' ≠ t := fun hh => ht' (hh ▸ List.mem_cons_self t tys)
        have htail : t' ∉ tys := fun hh => ht' (List.mem_cons_of_mem t hh)
        rw [hother t' htail]
        exact alookup_ainsert_ne _ _ hne

/-- C6: removing the sole entity of an archetype (in a storage whose
component index is well formed: entries are nonempty, duplicate-free, and
point only at existing archetypes that carry the type) deletes the whole
archetype, removes its id from the type-index entry of every type it
contains, and removes any entry that becomes empty, leaving all other
archetypes and index entries unchanged. -/
theorem remove_sole_entity_deletes_archetype (s : Storage) (e : EntityId)
    (r : EntityRecord) (A : Archetype) (c0 : Column)
    (hrec : alookup s.entity_index e = some r)
    (harch : alookup s.archetypes r.archetype_id = some A)
    (hc0 : A.component_types.get? 0 = some c0)
    (hone : c0.data.length = 1)
    (hndA : A.types.Nodup)
    (hwf : ∀ t ids, alookup s.component_index t = some ids →
      ids ≠ [] ∧ ids.Nodup ∧
        ∀ id ∈ ids, ∃ B, alookup s.archetypes id = some B ∧ t ∈ B.types)
    (htypes : ∀ t ∈ A.types, ∃ ids, alookup s.component_index t = some ids ∧
      r.archetype_id ∈ ids) :
    ∃ s', remove_entity s e = .ok s' ∧
      alookup s'.archetypes r.archetype_id = none ∧
      (∀ id, id ≠ r.archetype_id → alookup s'.archetypes id = alookup s.archetypes id) ∧
      (∀ t ids, alookup s.component_index t = some ids →
        alookup s'.component_index t =
          (if ids.filter (fun id => id ≠ r.archetype_id) = [] then none
           else some (ids.filter (fun id => id ≠ r.archetype_id)))) ∧
      (∀ t, alookup s.component_index t = none → alookup s'.component_index t = none) := by
  have hstep : remove_entity s e =
      remove_archetype { s with entity_index := aremove s.entity_index e } r.archetype_id := by
    simp only [remove_entity, hrec, harch, hc0, hone, if_pos]
  by_cases hlen : s.archetypes.length = 1
  · -- last archetype: everything is cleared
    have hclear : remove_archetype { s with entity_index := aremove s.entity_index e } r.archetype_id = .ok { s with archetypes := [], component_index := [], entity_index := [] } := by
      simp only [remove_archetype, hlen, if_pos]
    refine ⟨_, hstep.trans hclear, rfl, ?_, ?_, fun t _ => rfl⟩
    · intro id hid
      cases hother : alookup s.archetypes id with
      | none => rfl
      | some B => exact absurd (alookup_length_one s.archetypes hlen hother harch) hid
    · intro t ids hlook
      obtain ⟨-, -, hall⟩ := hwf t ids hlook
      have hfil : ids.filter (fun id => id ≠ r.archetype_id) = [] := by
        rw [List.filter_eq_nil_iff]
        intro id hid
        obtain ⟨B, hB, -⟩ := hall id hid
        simp [alookup_length_one s.archetypes hlen hB harch]
      rw [if_pos hfil]
      rfl
  · -- other archetypes remain: purge the index entries of A's types
    have hin : ∀ t ∈ A.types, ∃ ids, alookup s.component_index t = some ids ∧
        r.archetype_id ∈ ids ∧ ids.Nodup := by
      intro t ht
      obtain ⟨ids, h1, h2⟩ := htypes t ht
      exact ⟨ids, h1, h2, (hwf t ids h1).2.1⟩
    obtain ⟨s', hrun, ha, he, hcnt, hmain, hother⟩ :=
      remove_archetype_fold r.archetype_id A.types { s with entity_index := aremove s.entity_index e, archetypes := aremove s.archetypes r.archetype_id } hndA hin
    have hremarch : remove_archetype { s with entity_index := aremove s.entity_index e } r.archetype_id = .ok s' := by
      simp only [remove_archetype, hlen, if_neg, harch]
      exact hrun
    refine ⟨s', hstep.trans hremarch, ?_, ?_, ?_, ?_⟩
    · rw [ha]
      exact alookup_aremove_self _ _
    · intro id hid
      rw [ha]
      exact alookup_aremove_ne _ hid
    · intro t ids hlook
      by_cases ht : t ∈ A.types
      · exact hmain t ht ids hlook
      · rw [hother t ht]
        obtain ⟨hne, -, hall⟩ := hwf t ids hlook
        have haidnot : r.archetype_id ∉ ids := by
          intro hmem
          obtain ⟨B, hB, htB⟩ := hall r.archetype_id hmem
          rw [harch] at hB
          cases hB
          exact ht htB
        have hfil : ids.filter (fun id => id ≠ r.archetype_id) = ids := by
          rw [List.filter_eq_self]
          intro id hid
          simp
          exact fun hh => haidnot (hh ▸ hid)
        rw [hfil, if_neg hne]
        exact hlook
    · intro t hnone
      have ht : t ∉ A.types := by
        intro ht
        obtain ⟨ids, h1, -⟩ := htypes t ht
        rw [hnone] at h1
        cases h1
      rw [hother t ht]
      exact hnone
/-- Witness for C6: removing the only entity of a one-archetype storage
deletes the archetype and empties its type-index entry. -/
theorem remove_sole_entity_deletes_archetype_witness :
    ∃ s', remove_entity ⟨[(0, ⟨0, [⟨7, [5]⟩], [7]⟩)], [(7, [0])], [(0, ⟨0, 0⟩)], 1⟩ 0 =
        .ok s' ∧
      alookup s'.archetypes 0 = none ∧ alookup s'.component_index 7 = none := by
  obtain ⟨s', h1, h2, -, h4, -⟩ :=
    remove_sole_entity_deletes_archetype
      ⟨[(0, ⟨0, [⟨7, [5]⟩], [7]⟩)], [(7, [0])], [(0, ⟨0, 0⟩)], 1⟩ 0
      ⟨0, 0⟩ ⟨0, [⟨7, [5]⟩], [7]⟩ ⟨7, [5]⟩ rfl rfl rfl rfl (by decide)
      (by
        intro t ids h
        by_cases h7 : (7 : Nat) = t
        · subst h7
          simp [alookup] at h
          subst h
          refine ⟨by decide, by decide, ?_⟩
          intro id hid
          simp at hid
          subst hid
          exact ⟨⟨0, [⟨7, [5]⟩], [7]⟩, rfl, by decide⟩
        · simp [alookup, h7] at h)
      (by
        intro t ht
        simp at ht
        subst ht
        exact ⟨[0], rfl, by decide⟩)
  refine ⟨s', h1, h2, ?_⟩
  have := h4 7 [0] rfl
  simpa using this

/-! ### C7 -/

theorem nodup_findIdx_getElem (ts : List TypeId) (hnd : ts.Nodup) (i : Nat)
    (hi : i < ts.length) : ts.findIdx (fun t => t = ts[i]) = i := by
  induction ts generalizing i with
  | nil => simp at hi
  | cons t ts ih =>
    cases i with
    | zero => simp [List.findIdx_cons]
    | succ i =>
      have hi' : i < ts.length := by simpa using hi
      have htne : ¬ (t = ts[i]) := by
        intro hh
        exact (List.nodup_cons.mp hnd).1 (hh ▸ List.getElem_mem hi')
      have : ((t :: ts) : List TypeId)[i + 1] = ts[i] := by simp
      rw [this, List.findIdx_cons]
      simp only [htne, decide_eq_true_eq]
      simp [htne, ih (List.nodup_cons.mp hnd).2 i hi']

theorem findIdx_of_mem_nodup (ts : List TypeId) (hnd : ts.Nodup) (τ : TypeId)
    (hτ : τ ∈ ts) : ts.findIdx (fun t => t = τ) < ts.length ∧
      ts[ts.findIdx (fun t => t = τ)]? = some τ := by
  obtain ⟨i, hi, rfl⟩ := List.mem_iff_getElem.mp hτ
  have h := nodup_findIdx_getElem ts hnd i hi
  refine ⟨by rw [h]; exact hi, ?_⟩
  rw [h, List.getElem?_eq_getElem hi]


/-- Shorthand for the sort key used by `iter_archetype_components_by_type_ids`. -/
def columnKey (type_ids : List TypeId) (c : Column) : Nat :=
  type_ids.findIdx (fun t => t = c.elemTy)

theorem iter_by_type_ids_eq_filterMap (a : Archetype) (ts : List TypeId)
    (hnd : ts.Nodup)
    (hkeys : (a.component_types.map (fun c => c.elemTy)).Nodup)
    (hpres : ∀ t ∈ ts, ∃ c ∈ a.component_types, c.elemTy = t) :
    iter_archetype_components_by_type_ids a ts =
      ts.filterMap (fun t => a.component_types.find? (fun c => c.elemTy = t)) := by
  classical
  set l := a.component_types with hl
  set f : TypeId → Option Column := fun t => l.find? (fun c => c.elemTy = t) with hf
  have hlnd : l.Nodup := List.Nodup.of_map _ hkeys
  have hinj : ∀ ⦃x⦄, x ∈ l → ∀ ⦃y⦄, y ∈ l → x.elemTy = y.elemTy → x = y :=
    fun x hx y hy h => List.inj_on_of_nodup_map hkeys hx hy h
  have hfsome : ∀ t ∈ ts, ∃ c, f t = some c ∧ c.elemTy = t ∧ c ∈ l := by
    intro t ht
    obtain ⟨c, hc, hcty⟩ := hpres t ht
    have : (l.find? (fun c => c.elemTy = t)).isSome :=
      List.find?_isSome.mpr ⟨c, hc, by simp [hcty]⟩
    obtain ⟨c', hc'⟩ := Option.isSome_iff_exists.mp this
    refine ⟨c', hc', ?_, List.mem_of_find?_eq_some hc'⟩
    have := List.find?_some hc'
    simpa using this
  -- membership characterisations
  have hmem_target : ∀ c, c ∈ ts.filterMap f ↔ (c ∈ l ∧ c.elemTy ∈ ts) := by
    intro c
    rw [List.mem_filterMap]
    constructor
    · rintro ⟨t, ht, hfc⟩
      have h1 := List.mem_of_find?_eq_some hfc
      have h2 : c.elemTy = t := by simpa using List.find?_some hfc
      exact ⟨h1, h2 ▸ ht⟩
    · rintro ⟨hcl, hcty⟩
      obtain ⟨c', hc', hty', hmem'⟩ := hfsome c.elemTy hcty
      have : c' = c := hinj hmem' hcl hty'
      exact ⟨c.elemTy, hcty, this ▸ hc'⟩
  have hmem_filter : ∀ c, c ∈ l.filter (fun c => ts.contains c.elemTy) ↔
      (c ∈ l ∧ c.elemTy ∈ ts) := by
    intro c
    simp [List.mem_filter]
  -- nodups
  have hnd_filter : (l.filter (fun c => ts.contains c.elemTy)).Nodup := hlnd.filter _
  have hnd_target : (ts.filterMap f).Nodup := by
    refine List.Nodup.filterMap ?_ hnd
    intro t t' c hc hc'
    have h1 : c.elemTy = t := by simpa using List.find?_some hc
    have h2 : c.elemTy = t' := by simpa using List.find?_some hc'
    rw [← h1, h2]
  -- the filtered list is a permutation of the target
  have hperm : (l.filter (fun c => ts.contains c.elemTy)).Perm (ts.filterMap f) := by
    rw [List.perm_ext_iff_of_nodup hnd_filter hnd_target]
    intro c
    rw [hmem_filter, hmem_target]
  -- keys determine element types for members of ts
  have hkeyinj : ∀ c c' : Column, c.elemTy ∈ ts → c'.elemTy ∈ ts →
      columnKey ts c = columnKey ts c' → c.elemTy = c'.elemTy := by
    intro c c' hc hc' hk
    obtain ⟨hlt, hget⟩ := findIdx_of_mem_nodup ts hnd c.elemTy hc
    obtain ⟨hlt', hget2⟩ := findIdx_of_mem_nodup ts hnd c'.elemTy hc'
    simp only [columnKey] at hk
    rw [hk] at hget
    rw [hget] at hget2
    exact Option.some.inj hget2
  -- the sorted output of the stable sort
  letI rle : Column → Column → Prop := fun c₁ c₂ => columnKey ts c₁ ≤ columnKey ts c₂
  letI rlt : Column → Column → Prop := fun c₁ c₂ => columnKey ts c₁ < columnKey ts c₂
  letI : DecidableRel rle := fun a b => Nat.decLe _ _
  haveI : IsTotal Column rle := ⟨fun a b => Nat.le_total _ _⟩
  haveI : IsTrans Column rle := ⟨fun a b c => Nat.le_trans⟩
  haveI : IsAntisymm Column rlt := ⟨fun a b h₁ h₂ => absurd h₂ (Nat.lt_asymm h₁)⟩
  have hsorted_le : List.Sorted rle ((l.filter
      (fun c => ts.contains c.elemTy)).insertionSort rle) :=
    List.sorted_insertionSort rle _
  have hperm_sort : ((l.filter (fun c => ts.contains c.elemTy)).insertionSort rle).Perm
      (l.filter (fun c => ts.contains c.elemTy)) := List.perm_insertionSort rle _
  -- element types in the sorted list are pairwise distinct keys
  have hkeysnd_filter : ((l.filter (fun c => ts.contains c.elemTy)).map
      (fun c => c.elemTy)).Nodup :=
    List.Nodup.sublist (List.Sublist.map _ (List.filter_sublist l)) hkeys
  have hkeysnd_sorted : (((l.filter (fun c => ts.contains c.elemTy)).insertionSort rle).map
      (fun c => c.elemTy)).Nodup := (hperm_sort.map _).nodup_iff.mpr hkeysnd_filter
  have hmem_sorted : ∀ c ∈ (l.filter (fun c => ts.contains c.elemTy)).insertionSort rle,
      c.elemTy ∈ ts := by
    intro c hc
    have := hperm_sort.mem_iff.mp hc
    exact ((hmem_filter c).mp this).2
  have hsorted_strict : List.Pairwise rlt
      ((l.filter (fun c => ts.contains c.elemTy)).insertionSort rle) := by
    have hne : List.Pairwise (fun c₁ c₂ : Column => c₁.elemTy ≠ c₂.elemTy)
        ((l.filter (fun c => ts.contains c.elemTy)).insertionSort rle) := by
      rw [← List.pairwise_map (f := fun c : Column => c.elemTy) (R := (· ≠ ·))]
      exact hkeysnd_sorted
    have hcomb := List.Pairwise.and hsorted_le hne
    refine hcomb.imp_of_mem ?_
    intro c₁ c₂ h₁ h₂ hab
    exact lt_of_le_of_ne hab.1
      (fun hkeq => hab.2 (hkeyinj c₁ c₂ (hmem_sorted _ h₁) (hmem_sorted _ h₂) hkeq))
  have htarget_strict : List.Pairwise rlt (ts.filterMap f) := by
    rw [List.pairwise_filterMap, List.pairwise_iff_getElem]
    intro i j hi hj hij c₁ hc₁ c₂ hc₂
    have h1 : c₁.elemTy = ts[i] := by
      simpa using List.find?_some (Option.mem_def.mp hc₁)
    have h2 : c₂.elemTy = ts[j] := by
      simpa using List.find?_some (Option.mem_def.mp hc₂)
    show columnKey ts c₁ < columnKey ts c₂
    simp only [columnKey, h1, h2]
    rw [nodup_findIdx_getElem ts hnd i hi, nodup_findIdx_getElem ts hnd j hj]
    exact hij
  unfold iter_archetype_components_by_type_ids
  exact List.eq_of_perm_of_sorted (hperm_sort.trans hperm) hsorted_strict htarget_strict


theorem filterMap_length_of_all_some (f : TypeId → Option Column)
    (ts : List TypeId) (hf : ∀ t ∈ ts, (f t).isSome) :
    (ts.filterMap f).length = ts.length := by
  induction ts with
  | nil => rfl
  | cons t ts ih =>
    obtain ⟨c, hc⟩ := Option.isSome_iff_exists.mp (hf t (List.mem_cons_self t ts))
    rw [List.filterMap_cons, hc]
    simpa using ih (fun t' ht' => hf t' (List.mem_cons_of_mem t ht'))

theorem pickColumns_of_matching (f : TypeId → Option Column) (ts : List TypeId)
    (hf : ∀ t ∈ ts, ∃ c, f t = some c ∧ c.elemTy = t) :
    pickColumns ts (ts.filterMap f) = .ok (ts.filterMap f) := by
  induction ts with
  | nil => rfl
  | cons t ts ih =>
    obtain ⟨c, hc, hcty⟩ := hf t (List.mem_cons_self t ts)
    have htail := ih (fun t' ht' => hf t' (List.mem_cons_of_mem t ht'))
    rw [List.filterMap_cons, hc]
    simp only [pickColumns, hcty, if_pos, htail]

theorem filterMap_get_of_all_some (f : TypeId → Option Column) (ts : List TypeId)
    (hf : ∀ t ∈ ts, (f t).isSome) (i : Nat) (hi : i < ts.length) :
    (ts.filterMap f).get? i = f ts[i] := by
  induction ts generalizing i with
  | nil => simp at hi
  | cons t ts ih =>
    obtain ⟨c, hc⟩ := Option.isSome_iff_exists.mp (hf t (List.mem_cons_self t ts))
    rw [List.filterMap_cons, hc]
    cases i with
    | zero => simp [hc]
    | succ i =>
      have hi' : i < ts.length := by simpa using hi
      have := ih (fun t' ht' => hf t' (List.mem_cons_of_mem t ht')) i hi'
      simpa using this

/-- C7: for a query over pairwise-distinct types against an archetype whose
columns have pairwise-distinct element types and contain every requested
type, the extracted column list pairs position `i` with the unique column
whose element type is the `i`-th requested type (regardless of the
archetype's internal column order), the per-archetype tuples are the zip
of those columns' data in requested order, and the `k`-th tuple reads the
`k`-th element of each picked column. -/
theorem query_columns_in_requested_order (a : Archetype) (ts : List TypeId)
    (hnd : ts.Nodup)
    (hkeys : (a.component_types.map (fun c => c.elemTy)).Nodup)
    (hpres : ∀ t ∈ ts, ∃ c ∈ a.component_types, c.elemTy = t) :
    ∃ picked, pickColumns ts (iter_archetype_components_by_type_ids a ts) = .ok picked ∧
      picked.length = ts.length ∧
      (∀ i (hi : i < ts.length), picked.get? i =
        a.component_types.find? (fun col => col.elemTy = ts[i])) ∧
      archetypeTuples a ts = .ok (zipRows (picked.map (fun c => c.data))) ∧
      (∀ k, k < (((picked.map (fun c => c.data)).map List.length).min?.getD 0) →
        (zipRows (picked.map (fun c => c.data))).get? k =
          some (picked.map (fun c => c.data.getD k 0))) := by
  have hiter := iter_by_type_ids_eq_filterMap a ts hnd hkeys hpres
  set f : TypeId → Option Column :=
    fun t => a.component_types.find? (fun c => c.elemTy = t) with hfdef
  have hfprop : ∀ t ∈ ts, ∃ c, f t = some c ∧ c.elemTy = t := by
    intro t ht
    obtain ⟨c, hc, hcty⟩ := hpres t ht
    have : (a.component_types.find? (fun c => c.elemTy = t)).isSome :=
      List.find?_isSome.mpr ⟨c, hc, by simp [hcty]⟩
    obtain ⟨c', hc'⟩ := Option.isSome_iff_exists.mp this
    exact ⟨c', hc', by simpa using List.find?_some hc'⟩
  have hpick := pickColumns_of_matching f ts hfprop
  refine ⟨ts.filterMap f, by rw [hiter]; exact hpick, ?_, ?_, ?_, ?_⟩
  · exact filterMap_length_of_all_some f ts
      (fun t ht => by obtain ⟨c, hc, -⟩ := hfprop t ht; simp [hc])
  · intro i hi
    exact filterMap_get_of_all_some f ts
      (fun t ht => by obtain ⟨c, hc, -⟩ := hfprop t ht; simp [hc]) i hi
  · -- archetypeTuples
    rw [archetypeTuples, hiter, hpick]
  · intro k hk
    simp only [zipRows]
    rw [List.get?_eq_getElem?, List.getElem?_map, List.getElem?_range hk]
    simp [List.map_map]

/-- Witness for C7: an archetype storing its columns in the order
`[type 2, type 1]` still yields the type-1 column first when the query
requests `[1, 2]`. -/
theorem query_columns_in_requested_order_witness :
    ∃ picked, pickColumns [1, 2] (iter_archetype_components_by_type_ids
        ⟨0, [⟨2, [20, 21]⟩, ⟨1, [10, 11]⟩], [1, 2]⟩ [1, 2]) = .ok picked ∧
      picked.get? 0 = some ⟨1, [10, 11]⟩ ∧ picked.get? 1 = some ⟨2, [20, 21]⟩ := by
  obtain ⟨picked, h1, -, h3, -, -⟩ :=
    query_columns_in_requested_order ⟨0, [⟨2, [20, 21]⟩, ⟨1, [10, 11]⟩], [1, 2]⟩ [1, 2]
      (by decide) (by decide) (by decide)
  refine ⟨picked, h1, ?_, ?_⟩
  · have h := h3 0 (by decide)
    rw [h]
    rfl
  · have h := h3 1 (by decide)
    rw [h]
    rfl

/-! ### C5 -/

/-- The merge-join loop invariant: with strictly sorted type lists,
columns positionally aligned with their type lists, and enough fuel, the
loop succeeds; positions below the cursors and positions whose type is
absent from the other (remaining) list are untouched, and each tied pair
of positions gets exactly the swap-remove/append transfer when the row is
in bounds (and is untouched otherwise). -/
theorem alignLoop_spec (sTys tTys : List TypeId) (row : Nat)
    (hs : sTys.Pairwise (· < ·)) (ht : tTys.Pairwise (· < ·)) :
    ∀ fuel i j sCols tCols,
      (sTys.length - i) + (tTys.length - j) < fuel →
      sCols.length = sTys.length → tCols.length = tTys.length →
      (∀ k c, sCols[k]? = some c → ∀ (hk : k < sTys.length), c.elemTy = sTys[k]) →
      (∀ k c, tCols[k]? = some c → ∀ (hk : k < tTys.length), c.elemTy = tTys[k]) →
      ∃ sCols' tCols',
        alignLoop sTys tTys row fuel i j sCols tCols = .ok (sCols', tCols') ∧
        sCols'.length = sCols.length ∧ tCols'.length = tCols.length ∧
        (∀ k, k < i → sCols'[k]? = sCols[k]?) ∧
        (∀ k, k < j → tCols'[k]? = tCols[k]?) ∧
        (∀ k (hk : k < sTys.length), i ≤ k → sTys[k] ∉ tTys.drop j →
          sCols'[k]? = sCols[k]?) ∧
        (∀ l (hl : l < tTys.length), j ≤ l → tTys[l] ∉ sTys.drop i →
          tCols'[l]? = tCols[l]?) ∧
        (∀ k l (hk : k < sTys.length) (hl : l < tTys.length), i ≤ k → j ≤ l →
          sTys[k] = tTys[l] →
          ∀ sc tc, sCols[k]? = some sc → tCols[l]? = some tc →
            (row < sc.data.length →
              sCols'[k]? = some ⟨sc.elemTy, swapRemovedData sc.data row⟩ ∧
              tCols'[l]? = some ⟨tc.elemTy, tc.data ++ [sc.data.getD row 0]⟩) ∧
            (¬ row < sc.data.length →
              sCols'[k]? = some sc ∧ tCols'[l]? = some tc)) := by
  have hsmono : ∀ {k l : Nat} (hkl : k < l) (hl : l < sTys.length),
      sTys.get ⟨k, Nat.lt_trans hkl hl⟩ < sTys[l] :=
    fun {k l} hkl hl => List.pairwise_iff_getElem.mp hs k l (Nat.lt_trans hkl hl) hl hkl
  have htmono : ∀ {k l : Nat} (hkl : k < l) (hl : l < tTys.length),
      tTys.get ⟨k, Nat.lt_trans hkl hl⟩ < tTys[l] :=
    fun {k l} hkl hl => List.pairwise_iff_getElem.mp ht k l (Nat.lt_trans hkl hl) hl hkl
  intro fuel
  induction fuel with
  | zero => intro i j sCols tCols hfuel; omega
  | succ fuel ih =>
    intro i j sCols tCols hfuel hsl htl hsa hta
    by_cases hcond : i < sTys.length ∧ j < tTys.length
    case neg =>
      -- loop exit: nothing changes
      refine ⟨sCols, tCols, ?_, rfl, rfl, fun k _ => rfl, fun k _ => rfl,
        fun k hk _ _ => rfl, fun l hl _ _ => rfl, ?_⟩
      · simp only [alignLoop, dif_neg hcond]
      · intro k l hk hl hik hjl heq sc tc hsc htc
        exact absurd ⟨by omega, by omega⟩ hcond
    case pos =>
      obtain ⟨hi, hj⟩ := hcond
      have hstep : alignLoop sTys tTys row (fuel + 1) i j sCols tCols =
          (if sTys[i] < tTys[j] then alignLoop sTys tTys row fuel (i+1) j sCols tCols
          else if tTys[j] < sTys[i] then alignLoop sTys tTys row fuel i (j+1) sCols tCols
          else
            match sCols[i]?, tCols[j]? with
            | some sc, some tc =>
              if row < sc.data.length then
                match migrateElement sc row tc with
                | .error e => .error e
                | .ok (sc', tc') =>
                  alignLoop sTys tTys row fuel (i+1) (j+1) (sCols.set i sc') (tCols.set j tc')
              else alignLoop sTys tTys row fuel (i+1) (j+1) sCols tCols
            | _, _ => .error "index out of bounds") := by
        simp only [alignLoop]
        rw [dif_pos (show i < sTys.length ∧ j < tTys.length from ⟨hi, hj⟩)]
        simp only [List.get_eq_getElem, List.get?_eq_getElem?]
      by_cases hlt : sTys[i] < tTys[j]
      · -- advance the source cursor
        obtain ⟨sCols', tCols', hrun, hl1, hl2, hp1, hp2, hn1, hn2, hm⟩ :=
          ih (i+1) j sCols tCols (by omega) hsl htl hsa hta
        rw [hstep, if_pos hlt]
        refine ⟨sCols', tCols', hrun, hl1, hl2, ?_, hp2, ?_, ?_, ?_⟩
        · intro k hk
          exact hp1 k (by omega)
        · intro k hk hik hmem
          by_cases hki : k = i
          · exact hp1 k (by omega)
          · exact hn1 k hk (by omega) hmem
        · intro l hl hjl hmem
          refine hn2 l hl hjl ?_
          intro hmem'
          refine hmem ?_
          rw [← List.getElem_cons_drop sTys i hi]
          exact List.mem_cons_of_mem _ hmem'
        · intro k l hk hl hik hjl heq sc tc hsc htc
          refine hm k l hk hl ?_ hjl heq sc tc hsc htc
          -- k = i impossible: sTys[i] < tTys[j] ≤ tTys[l] = sTys[k]
          rcases Nat.lt_or_ge i k with h | h
          · omega
          · have hki : k = i := by omega
            subst hki
            have hle : tTys[j] ≤ tTys[l] := by
              rcases Nat.eq_or_lt_of_le hjl with rfl | hlt'
              · exact Nat.le_refl _
              · exact Nat.le_of_lt (htmono hlt' hl)
            have h2 : sTys[k] < tTys[l] := Nat.lt_of_lt_of_le hlt hle
            rw [← heq] at h2
            exact absurd h2 (Nat.lt_irrefl _)
      · by_cases hgt : tTys[j] < sTys[i]
        · -- advance the target cursor (symmetric)
          obtain ⟨sCols', tCols', hrun, hl1, hl2, hp1, hp2, hn1, hn2, hm⟩ :=
            ih i (j+1) sCols tCols (by omega) hsl htl hsa hta
          rw [hstep, if_neg hlt, if_pos hgt]
          refine ⟨sCols', tCols', hrun, hl1, hl2, hp1, ?_, ?_, ?_, ?_⟩
          · intro l hl
            exact hp2 l (by omega)
          · intro k hk hik hmem
            refine hn1 k hk hik ?_
            intro hmem'
            refine hmem ?_
            rw [← List.getElem_cons_drop tTys j hj]
            exact List.mem_cons_of_mem _ hmem'
          · intro l hl hjl hmem
            by_cases hlj : l = j
            · exact hp2 l (by omega)
            · exact hn2 l hl (by omega) hmem
          · intro k l hk hl hik hjl heq sc tc hsc htc
            refine hm k l hk hl hik ?_ heq sc tc hsc htc
            rcases Nat.lt_or_ge j l with h | h
            · omega
            · have hlj : l = j := by omega
              subst hlj
              have hle : sTys[i] ≤ sTys[k] := by
                rcases Nat.eq_or_lt_of_le hik with rfl | hlt'
                · exact Nat.le_refl _
                · exact Nat.le_of_lt (hsmono hlt' hk)
              have h2 : tTys[l] < sTys[k] := Nat.lt_of_lt_of_le hgt hle
              rw [← heq] at h2
              exact absurd h2 (Nat.lt_irrefl _)
        · -- tie: sTys[i] = tTys[j]
          have hteq : sTys[i] = tTys[j] :=
            Nat.le_antisymm (Nat.le_of_not_lt hgt) (Nat.le_of_not_lt hlt)
          have hsci : ∃ sc, sCols[i]? = some sc := by
            rw [List.getElem?_eq_getElem (show i < sCols.length by omega)]
            exact ⟨_, rfl⟩
          have htcj : ∃ tc, tCols[j]? = some tc := by
            rw [List.getElem?_eq_getElem (show j < tCols.length by omega)]
            exact ⟨_, rfl⟩
          obtain ⟨sc, hsc⟩ := hsci
          obtain ⟨tc, htc⟩ := htcj
          have hscty : sc.elemTy = sTys[i] := hsa i sc hsc hi
          have htcty : tc.elemTy = tTys[j] := hta j tc htc hj
          by_cases hrow : row < sc.data.length
          · -- migrate the tied column
            have hmig : migrateElement sc row tc =
                .ok (⟨sc.elemTy, swapRemovedData sc.data row⟩,
                  ⟨tc.elemTy, tc.data ++ [sc.data.getD row 0]⟩) := by
              simp only [migrateElement, listSwapRemove, dif_pos hrow]
              rw [if_pos (by rw [hscty, htcty, hteq])]
              simp [swapRemovedData, List.getD_eq_getElem _ _ hrow,
                List.get_eq_getElem, List.getElem?_eq_getElem hrow]
            obtain ⟨sCols', tCols', hrun, hl1, hl2, hp1, hp2, hn1, hn2, hm⟩ :=
              ih (i+1) (j+1) (sCols.set i ⟨sc.elemTy, swapRemovedData sc.data row⟩)
                (tCols.set j ⟨tc.elemTy, tc.data ++ [sc.data.getD row 0]⟩)
                (by omega) (by simpa using hsl) (by simpa using htl)
                (by
                  intro k c hkc hk
                  by_cases hki : i = k
                  · subst hki
                    rw [List.getElem?_set_self (by omega)] at hkc
                    cases hkc
                    exact hscty
                  · rw [List.getElem?_set_ne hki] at hkc
                    exact hsa k c hkc hk)
                (by
                  intro l c hlc hl
                  by_cases hlj : j = l
                  · subst hlj
                    rw [List.getElem?_set_self (by omega)] at hlc
                    cases hlc
                    exact htcty
                  · rw [List.getElem?_set_ne hlj] at hlc
                    exact hta l c hlc hl)
            rw [hstep, if_neg hlt, if_neg hgt, hsc, htc]
            simp only [if_pos hrow, hmig]
            refine ⟨sCols', tCols', hrun, by simpa using hl1, by simpa using hl2,
              ?_, ?_, ?_, ?_, ?_⟩
            · intro k hk
              rw [hp1 k (by omega), List.getElem?_set_ne (by omega)]
            · intro l hl
              rw [hp2 l (by omega), List.getElem?_set_ne (by omega)]
            · intro k hk hik hmem
              by_cases hki : k = i
              · subst hki
                exfalso
                refine hmem ?_
                rw [← List.getElem_cons_drop tTys j hj]
                exact hteq ▸ List.mem_cons_self _ _
              · have hik' : i + 1 ≤ k := by omega
                have hmem' : sTys[k] ∉ tTys.drop (j + 1) := by
                  intro hmem'
                  refine hmem ?_
                  rw [← List.getElem_cons_drop tTys j hj]
                  exact List.mem_cons_of_mem _ hmem'
                rw [hn1 k hk hik' hmem', List.getElem?_set_ne (fun hh => hki hh.symm)]
            · intro l hl hjl hmem
              by_cases hlj : l = j
              · subst hlj
                exfalso
                refine hmem ?_
                rw [← List.getElem_cons_drop sTys i hi]
                exact hteq ▸ List.mem_cons_self _ _
              · have hjl' : j + 1 ≤ l := by omega
                have hmem' : tTys[l] ∉ sTys.drop (i + 1) := by
                  intro hmem'
                  refine hmem ?_
                  rw [← List.getElem_cons_drop sTys i hi]
                  exact List.mem_cons_of_mem _ hmem'
                rw [hn2 l hl hjl' hmem', List.getElem?_set_ne (fun hh => hlj hh.symm)]
            · intro k l hk hl hik hjl heq sc₀ tc₀ hsc₀ htc₀
              by_cases hki : k = i
              · subst hki
                have hlj : l = j := by
                  by_contra hlj
                  have hjl' : j < l := by omega
                  have := htmono hjl' hl
                  rw [List.get_eq_getElem] at this
                  rw [← heq, hteq] at this
                  exact absurd this (Nat.lt_irrefl _)
                subst hlj
                rw [hsc₀] at hsc
                cases hsc
                rw [htc₀] at htc
                cases htc
                constructor
                · intro _
                  constructor
                  · rw [hp1 k (by omega), List.getElem?_set_self (by omega)]
                  · rw [hp2 l (by omega), List.getElem?_set_self (by omega)]
                · intro hrow'
                  exact absurd hrow hrow'
              · have hik' : i + 1 ≤ k := by omega
                have hlj : l ≠ j := by
                  intro hlj
                  subst hlj
                  have hik2 : i < k := by omega
                  have := hsmono hik2 hk
                  rw [List.get_eq_getElem] at this
                  rw [heq, hteq] at this
                  exact absurd this (Nat.lt_irrefl _)
                have hjl' : j + 1 ≤ l := by omega
                have := hm k l hk hl hik' hjl' heq sc₀ tc₀
                  (by rw [List.getElem?_set_ne (fun hh => hki hh.symm)]; exact hsc₀)
                  (by rw [List.getElem?_set_ne (fun hh => hlj hh.symm)]; exact htc₀)
                exact this
          · -- the tied row is already out of bounds: nothing moves
            obtain ⟨sCols', tCols', hrun, hl1, hl2, hp1, hp2, hn1, hn2, hm⟩ :=
              ih (i+1) (j+1) sCols tCols (by omega) hsl htl hsa hta
            rw [hstep, if_neg hlt, if_neg hgt, hsc, htc]
            simp only [if_neg hrow]
            refine ⟨sCols', tCols', hrun, hl1, hl2, ?_, ?_, ?_, ?_, ?_⟩
            · intro k hk
              exact hp1 k (by omega)
            · intro l hl
              exact hp2 l (by omega)
            · intro k hk hik hmem
              by_cases hki : k = i
              · subst hki
                exact hp1 k (by omega)
              · have hmem' : sTys[k] ∉ tTys.drop (j + 1) := by
                  intro hmem'
                  refine hmem ?_
                  rw [← List.getElem_cons_drop tTys j hj]
                  exact List.mem_cons_of_mem _ hmem'
                exact hn1 k hk (by omega) hmem'
            · intro l hl hjl hmem
              by_cases hlj : l = j
              · subst hlj
                exact hp2 l (by omega)
              · have hmem' : tTys[l] ∉ sTys.drop (i + 1) := by
                  intro hmem'
                  refine hmem ?_
                  rw [← List.getElem_cons_drop sTys i hi]
                  exact List.mem_cons_of_mem _ hmem'
                exact hn2 l hl (by omega) hmem'
            · intro k l hk hl hik hjl heq sc₀ tc₀ hsc₀ htc₀
              by_cases hki : k = i
              · subst hki
                have hlj : l = j := by
                  by_contra hlj
                  have hjl' : j < l := by omega
                  have := htmono hjl' hl
                  rw [List.get_eq_getElem] at this
                  rw [← heq, hteq] at this
                  exact absurd this (Nat.lt_irrefl _)
                subst hlj
                rw [hsc₀] at hsc
                cases hsc
                rw [htc₀] at htc
                cases htc
                constructor
                · intro hrow'
                  exact absurd hrow' hrow
                · intro _
                  exact ⟨hp1 k (by omega) ▸ hsc₀, hp2 l (by omega) ▸ htc₀⟩
              · have hik' : i + 1 ≤ k := by omega
                have hlj : l ≠ j := by
                  intro hlj
                  subst hlj
                  have hik2 : i < k := by omega
                  have := hsmono hik2 hk
                  rw [List.get_eq_getElem] at this
                  rw [heq, hteq] at this
                  exact absurd this (Nat.lt_irrefl _)
                exact hm k l hk hl hik' (by omega) heq sc₀ tc₀ hsc₀ htc₀

/-- C5: for archetypes with strictly sorted type lists (columns aligned
with the types), `align_and_migrate_archetypes` transfers, for exactly the
component types present in both archetypes, the element at `row` from the
source column — by swap-remove, and only when `row` is within that source
column's bounds — appending it to the target's matching column; columns
whose type appears in only one of the two archetypes are left untouched. -/
theorem align_and_migrate_transfers (source target : Archetype) (row : Nat)
    (hs : source.types.Pairwise (· < ·)) (ht : target.types.Pairwise (· < ·))
    (hsl : source.component_types.length = source.types.length)
    (htl : target.component_types.length = target.types.length)
    (hsa : ∀ k c, source.component_types[k]? = some c →
      ∀ (hk : k < source.types.length), c.elemTy = source.types[k])
    (hta : ∀ k c, target.component_types[k]? = some c →
      ∀ (hk : k < target.types.length), c.elemTy = target.types[k]) :
    ∃ src' tgt', align_and_migrate_archetypes source target row = .ok (src', tgt') ∧
      src'.id = source.id ∧ src'.types = source.types ∧
      tgt'.id = target.id ∧ tgt'.types = target.types ∧
      src'.component_types.length = source.component_types.length ∧
      tgt'.component_types.length = target.component_types.length ∧
      (∀ k (hk : k < source.types.length), source.types[k] ∉ target.types →
        src'.component_types[k]? = source.component_types[k]?) ∧
      (∀ l (hl : l < target.types.length), target.types[l] ∉ source.types →
        tgt'.component_types[l]? = target.component_types[l]?) ∧
      (∀ k l (hk : k < source.types.length) (hl : l < target.types.length),
        source.types[k] = target.types[l] →
        ∀ sc tc, source.component_types[k]? = some sc →
          target.component_types[l]? = some tc →
          (row < sc.data.length →
            src'.component_types[k]? = some ⟨sc.elemTy, swapRemovedData sc.data row⟩ ∧
            tgt'.component_types[l]? = some ⟨tc.elemTy, tc.data ++ [sc.data.getD row 0]⟩) ∧
          (¬ row < sc.data.length →
            src'.component_types[k]? = some sc ∧
            tgt'.component_types[l]? = some tc)) := by
  obtain ⟨sCols', tCols', hrun, hl1, hl2, hp1, hp2, hn1, hn2, hm⟩ :=
    alignLoop_spec source.types target.types row hs ht
      (source.types.length + target.types.length + 1) 0 0
      source.component_types target.component_types (by omega) hsl htl hsa hta
  refine ⟨{ source with component_types := sCols' }, { target with component_types := tCols' },
    ?_, rfl, rfl, rfl, rfl, hl1, hl2, ?_, ?_, ?_⟩
  · rw [align_and_migrate_archetypes, hrun]
  · intro k hk hmem
    exact hn1 k hk (Nat.zero_le _) (by simpa using hmem)
  · intro l hl hmem
    exact hn2 l hl (Nat.zero_le _) (by simpa using hmem)
  · intro k l hk hl heq sc tc hsc htc
    exact hm k l hk hl (Nat.zero_le _) (Nat.zero_le _) heq sc tc hsc htc
/-- Witness for C5: migrating row 0 between a `[1, 3]` archetype and a
`[1, 2]` archetype moves only the type-1 element and leaves the type-3 and
type-2 columns untouched. -/
theorem align_and_migrate_transfers_witness :
    ∃ src' tgt', align_and_migrate_archetypes ⟨0, [⟨1, [5]⟩, ⟨3, [9]⟩], [1, 3]⟩
        ⟨1, [⟨1, []⟩, ⟨2, [7]⟩], [1, 2]⟩ 0 = .ok (src', tgt') ∧
      src'.component_types[0]? = some ⟨1, []⟩ ∧
      tgt'.component_types[0]? = some ⟨1, [5]⟩ ∧
      src'.component_types[1]? = some ⟨3, [9]⟩ ∧
      tgt'.component_types[1]? = some ⟨2, [7]⟩ := by
  obtain ⟨src', tgt', h1, -, -, -, -, -, -, hn1, hn2, hm⟩ :=
    align_and_migrate_transfers ⟨0, [⟨1, [5]⟩, ⟨3, [9]⟩], [1, 3]⟩
      ⟨1, [⟨1, []⟩, ⟨2, [7]⟩], [1, 2]⟩ 0
      (by decide) (by decide) (by decide) (by decide)
      (by
        intro k c h hk
        have hk2 : k < 2 := by simpa using hk
        interval_cases k <;> (simp_all; subst h; rfl))
      (by
        intro k c h hk
        have hk2 : k < 2 := by simpa using hk
        interval_cases k <;> (simp_all; subst h; rfl))
  have hshared := (hm 0 0 (by decide) (by decide) rfl ⟨1, [5]⟩ ⟨1, []⟩ rfl rfl).1 (by decide)
  exact ⟨src', tgt', h1, hshared.1, hshared.2,
    hn1 1 (by decide) (by decide), hn2 1 (by decide) (by decide)⟩

end ECS
